import Mathlib

/-!
Verification of the simulavr trace/dump and addressable-cell subsystem.

The development shallowly embeds:
  * the trace-value access-flag machinery declared in `src/traceval.h`
    (the member-function bodies live in `traceval.cpp`, which is not among
    the sources; those bodies are modelled from the specification, and each
    such definition is marked `Modelled from the spec:`);
  * the addressable-cell memory members implemented in `src/rwmem.cpp`
    (`RWMemoryMember`, `RAM`, `InvalidMem`), embedded directly from the code.

Machine bytes are represented as `Nat`; an `Option Nat` value stands for a
C++ `unsigned char` that may be uninitialized or unspecified (garbage).
-/

namespace Simulavr

/-! ## Access flags (`TraceValue::Atype`, traceval.h lines 127-131) -/

/-- `READ=1`: a READ access has been logged (traceval.h, enum Atype). -/
def READ : Nat := 1

/-- `WRITE=2` (traceval.h, enum Atype). -/
def WRITE : Nat := 2

/-- `CHANGE=4` (traceval.h, enum Atype). -/
def CHANGE : Nat := 4

/-! ## TraceValue state -/

/-- State of a `TraceValue` (fields of the class in traceval.h lines 170-193):
`_name` and `_index` identify the value, `b` is the bit width, `shadowMode`
records whether the instance was created with a non-null shadow pointer,
`v` is the stored value, `f` the accumulated access-flag bitmask,
`_written` the sticky written flag and `_enabled` the tracing-enabled flag. -/
structure TraceValue where
  _name : String
  _index : Int
  b : Nat
  shadowMode : Bool
  v : Nat
  f : Nat
  _written : Bool
  _enabled : Bool
deriving DecidableEq, Repr

/-- Modelled from the spec: the `TraceValue` constructor (body in the absent
traceval.cpp). Per spec section 4.2 the initial state is `written=false`,
`flags=0`; tracing starts disabled and is turned on by `enable()`. -/
def mkTraceValue (bits : Nat) (nm : String) (idx : Int) (shadowMode : Bool) :
    TraceValue :=
  { _name := nm, _index := idx, b := bits, shadowMode := shadowMode,
    v := 0, f := 0, _written := false, _enabled := false }

/-- `TraceValue::name()`: the fully qualified name (the index suffixing done by
the absent traceval.cpp body is irrelevant here; the model keeps the stored
name). -/
def TraceValue.name (t : TraceValue) : String := t._name

/-- The flag mask `fl` is contained in the accumulated flags of `t`. -/
def TraceValue.hasFlag (t : TraceValue) (fl : Nat) : Prop := t.f &&& fl ≠ 0

instance (t : TraceValue) (fl : Nat) : Decidable (t.hasFlag fl) := by
  unfold TraceValue.hasFlag; infer_instance

/-- Modelled from the spec: `TraceValue::write` (body in the absent
traceval.cpp). Spec section 4.2: "if disabled, no-op. Else: set WRITE flag;
if `val != currentValue`, set CHANGE flag; update `currentValue`; set
`written=true` permanently." -/
def TraceValue.write (t : TraceValue) (val : Nat) : TraceValue :=
  if t._enabled then
    { t with
      f := (t.f ||| WRITE) ||| (if val ≠ t.v then CHANGE else 0),
      v := val,
      _written := true }
  else t

/-- Modelled from the spec: `TraceValue::read` (body in the absent
traceval.cpp). Spec section 4.2: "if disabled, no-op. Else: set READ flag.
Does not affect `written` or CHANGE." -/
def TraceValue.read (t : TraceValue) : TraceValue :=
  if t._enabled then { t with f := t.f ||| READ } else t

/-- Modelled from the spec: `TraceValue::cycle` (body in the absent
traceval.cpp). Spec section 4.2: shadow mode only; "if disabled, no-op.
Else: compare `*shadow` to `currentValue`; if different, set CHANGE flag and
update `currentValue`." The dereferenced shadow value is passed as `ext`. -/
def TraceValue.cycle (t : TraceValue) (ext : Nat) : TraceValue :=
  if t._enabled ∧ t.shadowMode then
    if ext ≠ t.v then { t with f := t.f ||| CHANGE, v := ext } else t
  else t

/-- Modelled from the spec: `TraceValue::clear_flags` (body in the absent
traceval.cpp; declared "Clear all access flags", traceval.h line 167). -/
def TraceValue.clear_flags (t : TraceValue) : TraceValue := { t with f := 0 }

/-- Modelled from the spec: `TraceValue::set_written` (body in the absent
traceval.cpp; declared "Just set the written flag", traceval.h lines 151-153). -/
def TraceValue.set_written (t : TraceValue) : TraceValue :=
  { t with _written := true }

/-- Modelled from the spec: `TraceValue::enable` (body in the absent
traceval.cpp). Spec section 4.2: `enable()` is idempotent and one-directional. -/
def TraceValue.enable (t : TraceValue) : TraceValue := { t with _enabled := true }

/-! ## Addressable cells (`rwmem.cpp`)

Observable side effects of the cell operations — calls into the owned trace
value and diagnostic output on `cerr` — are recorded in an effect log.
Dereferencing the null trace-value pointer (`tv->name()` with `tv == 0`) is
undefined behavior in the C++ source; the model records it as the distinct
effect `Effect.nullDeref`. -/

/-- One observable side effect of a cell access:
  * `trRead nm`: the call `tv->read()` on the trace value named `nm`;
  * `trWrite nm v`: the call `tv->write(v)` on the trace value named `nm`;
  * `diagInvalidRead nm`: the `cerr` report of `InvalidMem::get`
    (rwmem.cpp lines 106-108), which names the cell;
  * `diagInvalidWrite nm v pc2`: the `cerr` report of `InvalidMem::set`
    (rwmem.cpp lines 111-116), which names the cell, shows the faulting
    value `v` and prints the program counter as the byte address
    `pc2 = 2*core->PC`;
  * `nullDeref`: the undefined behavior of evaluating `tv->name()` while
    `tv` is the null pointer. -/
inductive Effect where
  | trRead (nm : String)
  | trWrite (nm : String) (v : Option Nat)
  | diagInvalidRead (nm : String)
  | diagInvalidWrite (nm : String) (v : Option Nat) (pc2 : Nat)
  | nullDeref
deriving DecidableEq, Repr

/-- An addressable cell (`RWMemoryMember` subclasses in rwmem.cpp): either a
`RAM` cell holding a (possibly uninitialized) byte, or an `InvalidMem` cell.
`tv` is the owned trace value, null (`none`) when the cell was constructed
with an empty trace name (rwmem.cpp lines 55-56). -/
inductive Cell where
  | ram (tv : Option TraceValue) (value : Option Nat)
  | invalid (tv : Option TraceValue)
deriving DecidableEq, Repr

/-- The cell's trace-value pointer (`RWMemoryMember::tv`). -/
def Cell.tv : Cell → Option TraceValue
  | .ram tv _ => tv
  | .invalid tv => tv

/-- The virtual `get()` of rwmem.cpp: `RAM::get` (line 93) returns the stored
byte; `InvalidMem::get` (lines 106-108) prints `"Invalid read access to " <<
tv->name()` on `cerr` and falls off the end of the function, so its return
value is unspecified (`none`). With a null `tv`, `tv->name()` dereferences
the null pointer. -/
def Cell.get : Cell → List Effect × Option Nat
  | .ram _ val => ([], val)
  | .invalid (some t) => ([.diagInvalidRead t.name], none)
  | .invalid none => ([.nullDeref], none)

/-- The virtual `set(v)` of rwmem.cpp: `RAM::set` (line 94) stores the byte;
`InvalidMem::set` (lines 111-116) prints on `cerr` the cell name, the
faulting value and `2*core->PC`, and stores nothing. With a null `tv`,
`tv->name()` dereferences the null pointer. -/
def Cell.set (c : Cell) (v : Option Nat) (pc : Nat) : List Effect × Cell :=
  match c with
  | .ram tv _ => ([], .ram tv v)
  | .invalid (some t) => ([.diagInvalidWrite t.name v (2 * pc)], .invalid (some t))
  | .invalid none => ([.nullDeref], .invalid none)

/-- `RWMemoryMember::operator unsigned char()` (rwmem.cpp lines 60-64):
`if (tv) tv->read(); return get();`. -/
def Cell.readByte (c : Cell) : List Effect × Option Nat :=
  let readEffs := match c.tv with
    | some t => [Effect.trRead t.name]
    | none => []
  let gr := c.get
  (readEffs ++ gr.1, gr.2)

/-- `RWMemoryMember::operator=(unsigned char val)` (rwmem.cpp lines 66-71):
`set(val); if (tv) tv->write(val); return val;`. -/
def Cell.writeByte (c : Cell) (val : Nat) (pc : Nat) : List Effect × Cell :=
  let sr := c.set (some val) pc
  let wEffs := match c.tv with
    | some t => [Effect.trWrite t.name (some val)]
    | none => []
  (sr.1 ++ wEffs, sr.2)

/-- `RWMemoryMember::operator=(const RWMemoryMember &mm)` (rwmem.cpp lines
73-81): `if (mm.tv) mm.tv->read(); unsigned char v = mm.get(); set(v);
if (tv) tv->write(v); return v;`. Returns the updated left cell, the effect
log in execution order and the transferred byte. -/
def assignCell (a b : Cell) (pc : Nat) : List Effect × Cell × Option Nat :=
  let readEffs := match b.tv with
    | some t => [Effect.trRead t.name]
    | none => []
  let gr := b.get
  let sr := a.set gr.2 pc
  let wEffs := match a.tv with
    | some t => [Effect.trWrite t.name gr.2]
    | none => []
  (readEffs ++ gr.1 ++ sr.1 ++ wEffs, sr.2, gr.2)

/-- `RWMemoryMember::RWMemoryMember` (rwmem.cpp lines 39-58): with a
non-empty trace name it requires an initialized core and dump manager
(`avr_error`, fatal, modelled as `Except.error`) and allocates a `TraceValue`
of width 8; with an empty trace name it sets `tv = 0`. -/
def mkRWMemoryMember (coreOk dmOk : Bool) (tracename : String) (idx : Int) :
    Except String (Option TraceValue) :=
  if tracename.length ≠ 0 then
    if !coreOk then
      .error ("core not initialized for RWMemoryMember '" ++ tracename ++ "'.")
    else if !dmOk then
      .error ("core->dump_manager not initialized for RWMemoryMember '" ++
              tracename ++ "'.")
    else .ok (some (mkTraceValue 8 tracename idx false))
  else .ok none

/-! ## Dumpers and the dump manager

`traceval.cpp`, which implements `TraceValue::dump`, `DumpManager::regTrace`,
`DumpManager::addDumper`, `DumpManager::cycle`, `DumpManager::save` and
`DumpManager::load`, is not among the sources; these operations are modelled
from the specification (sections 4.2-4.4). Dumpers are modelled by the event
logs they receive: a `markRead` / `markReadUnknown` / `markWrite` /
`markChange` callback appends the corresponding event. -/

/-- A dumper callback event, tagged with the trace value's name. -/
inductive DEv where
  | evRead (nm : String)
  | evReadUnknown (nm : String)
  | evWrite (nm : String)
  | evChange (nm : String)
deriving DecidableEq, Repr

/-- Modelled from the spec: the notifications one `TraceValue::dump` issues to
a dumper (traceval.cpp is absent). From the accumulated flags: a logged READ
gives `markRead` (and `markReadUnknown` when the value was never written), a
logged WRITE gives `markWrite`, a logged CHANGE gives `markChange`
(spec sections 4.2 and 4.3). -/
def dumpEvents (t : TraceValue) : List DEv :=
  (if t.hasFlag READ then
    [DEv.evRead t.name] ++
      (if t._written then [] else [DEv.evReadUnknown t.name])
   else []) ++
  (if t.hasFlag WRITE then [DEv.evWrite t.name] else []) ++
  (if t.hasFlag CHANGE then [DEv.evChange t.name] else [])

/-- Update the `i`-th element of a list in place (identity out of range). -/
def updAt (i : Nat) (g : TraceValue → TraceValue) :
    List TraceValue → List TraceValue
  | [] => []
  | t :: ts =>
    match i with
    | 0 => g t :: ts
    | i + 1 => t :: updAt i g ts

/-- Apply the per-index update `g i` at every index of `L`, in order. -/
def updFold (g : Nat → TraceValue → TraceValue) (L : List Nat)
    (vs : List TraceValue) : List TraceValue :=
  L.foldl (fun vs i => updAt i (g i) vs) vs

/-- State of a `DumpManager` (traceval.h lines 333-343): `vals` is `_all`,
the registered trace values in registration order (`all_map` is induced by
their names); `activeIdx` holds the indices into `vals` of the active set;
`dumperLogs` holds, per registered dumper, the list of callback events it
has received. -/
structure DumpManager where
  vals : List TraceValue
  activeIdx : List Nat
  dumperLogs : List (List DEv)
deriving Repr

/-- The manager of a freshly constructed device: nothing registered. -/
def initManager : DumpManager := { vals := [], activeIdx := [], dumperLogs := [] }

/-- Is a name registered in the manager's `all_map`? -/
def DumpManager.isRegistered (m : DumpManager) (nm : String) : Bool :=
  m.vals.any (fun t => t.name = nm)

/-- Lookup of a registered trace value by name (`all_map.find`). -/
def DumpManager.lookup (m : DumpManager) (nm : String) : Option TraceValue :=
  m.vals.find? (fun t => t.name = nm)

/-- Modelled from the spec: `DumpManager::regTrace` (traceval.cpp is absent).
Registers a value into `_all`; a duplicate name is a reported configuration
error and must not overwrite the existing entry (spec sections 4.4 and 7),
so on collision the registry is left unchanged. -/
def DumpManager.regTrace (m : DumpManager) (t : TraceValue) : DumpManager :=
  if m.isRegistered t.name then m
  else { m with vals := m.vals ++ [t] }

/-- Modelled from the spec: `DumpManager::addDumper` (traceval.cpp is absent).
The dumper's interest predicate `sel` is given over indices of `vals`; the
values it selects among the registered ones are enabled for tracing and
joined into the active set (spec section 4.4: `active` is the union over all
dumpers of the values their `enabled()` holds for, intersected with the
registered set), and the dumper starts with an empty event log. -/
def DumpManager.addDumper (m : DumpManager) (sel : Nat → Bool) : DumpManager :=
  let newIdx := (List.range m.vals.length).filter
    (fun i => sel i && !(m.activeIdx.contains i))
  { vals := updFold (fun _ => TraceValue.enable) newIdx m.vals,
    activeIdx := m.activeIdx ++ newIdx,
    dumperLogs := m.dumperLogs ++ [[]] }

/-- The callback events generated for every dumper during one manager cycle:
after the shadow-diffing pass, each active value contributes the
notifications of its accumulated flags, in active-set order. -/
def cycleEvents (env : Nat → Nat) (m : DumpManager) : List DEv :=
  let vs1 := updFold (fun i t => t.cycle (env i)) m.activeIdx m.vals
  (m.activeIdx.map (fun i =>
    match vs1[i]? with
    | some t => dumpEvents t
    | none => [])).flatten

/-- Modelled from the spec: `DumpManager::cycle` (traceval.cpp is absent).
Spec sections 4.2-4.3: first every active value runs `TraceValue::cycle`
(shadow diffing; `env i` is the dereferenced shadow of value `i`), then the
dumpers' own `cycle()` hooks run, then every active value's accumulated
flags are dumped to every dumper, and only after all dumpers have been
notified are the flags cleared — exactly once per value per cycle. -/
def DumpManager.cycle (m : DumpManager) (env : Nat → Nat) : DumpManager :=
  let vs1 := updFold (fun i t => t.cycle (env i)) m.activeIdx m.vals
  let evs := (m.activeIdx.map (fun i =>
    match vs1[i]? with
    | some t => dumpEvents t
    | none => [])).flatten
  { vals := updFold (fun _ => TraceValue.clear_flags) m.activeIdx vs1,
    activeIdx := m.activeIdx,
    dumperLogs := m.dumperLogs.map (fun log => log ++ evs) }

/-- Modelled from the spec: `DumpManager::save` (traceval.cpp is absent).
Writes the fully qualified name of every value of the subset, one per line
(spec sections 4.4 and 6); the stream is modelled as the list of lines. -/
def DumpManager.save (s : List TraceValue) : List String :=
  s.map TraceValue.name

/-- Modelled from the spec: `DumpManager::load` (traceval.cpp is absent).
Reads names from the stream; a name registered in the manager joins the
resulting subset, a name never registered is reported and skipped without
aborting the rest (spec sections 4.4 and 7). Returns the loaded subset and
the reported unknown names. -/
def DumpManager.load (m : DumpManager) (lines : List String) :
    List TraceValue × List String :=
  match lines with
  | [] => ([], [])
  | nm :: rest =>
    let r := m.load rest
    match m.lookup nm with
    | some t => (t :: r.1, r.2)
    | none => (r.1, nm :: r.2)

/-! ## Whole-run operation sequences -/

/-- An access operation applied directly to one trace value by peripheral
code: logging a write, logging a read, or the per-cycle shadow comparison
against the dereferenced shadow value `ext`. -/
inductive AccessOp where
  | aWrite (val : Nat)
  | aRead
  | aCycle (ext : Nat)
deriving DecidableEq, Repr

/-- Apply one access operation to a trace value. -/
def applyAccess (t : TraceValue) : AccessOp → TraceValue
  | .aWrite val => t.write val
  | .aRead => t.read
  | .aCycle ext => t.cycle ext

/-- Apply a sequence of access operations, in order. -/
def runAccess (t : TraceValue) (ops : List AccessOp) : TraceValue :=
  ops.foldl applyAccess t

/-- Any operation a `TraceValue` undergoes during its lifetime (the public
mutators of traceval.h): logged write, logged read, shadow-compare cycle,
the dump path's flag clearing, `enable()` and `set_written()`. -/
inductive TvOp where
  | tWrite (val : Nat)
  | tRead
  | tCycle (ext : Nat)
  | tClear
  | tEnable
  | tSetWritten
deriving DecidableEq, Repr

/-- Apply one lifetime operation to a trace value. -/
def applyTvOp (t : TraceValue) : TvOp → TraceValue
  | .tWrite val => t.write val
  | .tRead => t.read
  | .tCycle ext => t.cycle ext
  | .tClear => t.clear_flags
  | .tEnable => t.enable
  | .tSetWritten => t.set_written

/-- An operation on the manager during a run: registering a value, adding a
dumper, one simulated clock cycle, or peripheral code logging a write/read
on the `i`-th registered value. -/
inductive MOp where
  | mReg (t : TraceValue)
  | mAddDumper (sel : Nat → Bool)
  | mCycle (env : Nat → Nat)
  | mWrite (i : Nat) (val : Nat)
  | mRead (i : Nat)

/-- Apply one run operation to the manager state. -/
def applyMOp (m : DumpManager) : MOp → DumpManager
  | .mReg t => m.regTrace t
  | .mAddDumper sel => m.addDumper sel
  | .mCycle env => m.cycle env
  | .mWrite i val => { m with vals := updAt i (fun t => t.write val) m.vals }
  | .mRead i => { m with vals := updAt i TraceValue.read m.vals }

/-- The manager state after a whole run of operations from device
construction. -/
def runOps (ops : List MOp) : DumpManager :=
  ops.foldl applyMOp initManager

/-! ## Demonstration values used by the concrete instantiations -/

/-- An enabled 8-bit explicit-mode trace value, as a register would create. -/
def tvDemo : TraceValue := (mkTraceValue 8 "CORE.SREG" (-1) false).enable

/-- An enabled 8-bit shadow-mode trace value. -/
def tvShadowDemo : TraceValue := (mkTraceValue 8 "TIMER0.TCNT" (-1) true).enable

/-- A manager with one enabled, just-written value observed by two dumpers. -/
def mgrDemo : DumpManager :=
  { vals := [tvDemo.write 5], activeIdx := [0], dumperLogs := [[], []] }

/-! ## Helper lemmas -/

theorem updAt_length (i : Nat) (g : TraceValue → TraceValue)
    (l : List TraceValue) : (updAt i g l).length = l.length := by
  induction l generalizing i with
  | nil => simp [updAt]
  | cons t ts ih =>
    cases i with
    | zero => simp [updAt]
    | succ i => simp [updAt, ih]

theorem updAt_getElem? (g : TraceValue → TraceValue) (l : List TraceValue)
    (i j : Nat) :
    (updAt i g l)[j]? = if i = j then l[j]?.map g else l[j]? := by
  induction l generalizing i j with
  | nil => cases i <;> cases j <;> simp [updAt]
  | cons t ts ih =>
    cases i with
    | zero => cases j <;> simp [updAt]
    | succ i =>
      cases j with
      | zero => simp [updAt]
      | succ j => simpa [updAt] using ih i j

theorem updFold_length (g : Nat → TraceValue → TraceValue) (L : List Nat)
    (vs : List TraceValue) : (updFold g L vs).length = vs.length := by
  induction L generalizing vs with
  | nil => rfl
  | cons i L ih =>
    show (updFold g L (updAt i (g i) vs)).length = vs.length
    rw [ih, updAt_length]

theorem updFold_getElem?_pres (g : Nat → TraceValue → TraceValue)
    (P : TraceValue → Prop) (hP : ∀ i t, P t → P (g i t)) (L : List Nat)
    (vs : List TraceValue) (j : Nat) (t : TraceValue)
    (h : vs[j]? = some t) (hp : P t) :
    ∃ t', (updFold g L vs)[j]? = some t' ∧ P t' := by
  induction L generalizing vs t with
  | nil => exact ⟨t, h, hp⟩
  | cons i L ih =>
    show ∃ t', (updFold g L (updAt i (g i) vs))[j]? = some t' ∧ P t'
    by_cases hij : i = j
    · exact ih (updAt i (g i) vs) (g i t)
        (by rw [updAt_getElem?, if_pos hij, h]; rfl) (hP i t hp)
    · exact ih (updAt i (g i) vs) t
        (by rw [updAt_getElem?, if_neg hij]; exact h) hp

theorem updFold_getElem?_mem (g : Nat → TraceValue → TraceValue)
    (P : TraceValue → Prop) (hPall : ∀ i t, P (g i t)) (L : List Nat)
    (vs : List TraceValue) (j : Nat) (hj : j ∈ L) (hlen : j < vs.length) :
    ∃ t', (updFold g L vs)[j]? = some t' ∧ P t' := by
  induction L generalizing vs with
  | nil => cases hj
  | cons i L ih =>
    show ∃ t', (updFold g L (updAt i (g i) vs))[j]? = some t' ∧ P t'
    by_cases hmem : j ∈ L
    · exact ih (updAt i (g i) vs) hmem (by rw [updAt_length]; exact hlen)
    · have hij : i = j := by
        rcases List.mem_cons.mp hj with h | h
        · exact h.symm
        · exact absurd h hmem
      obtain ⟨t0, h0⟩ : ∃ t0, vs[j]? = some t0 := by
        cases h' : vs[j]? with
        | none =>
          exact absurd (List.getElem?_eq_none_iff.mp h') (Nat.not_le.mpr hlen)
        | some t0 => exact ⟨t0, rfl⟩
      exact updFold_getElem?_pres g P (fun i t _ => hPall i t) L
        (updAt i (g i) vs) j (g i t0)
        (by rw [updAt_getElem?, if_pos hij, h0]; rfl) (hPall i t0)

theorem or_and_self (x fl : Nat) : (x ||| fl) &&& fl = fl := by
  apply Nat.eq_of_testBit_eq
  intro k
  simp only [Nat.testBit_land, Nat.testBit_lor]
  cases h : fl.testBit k <;> simp [h]

theorem hasFlag_or_self (t : TraceValue) (x fl : Nat) (hfl : fl ≠ 0)
    (hf : t.f = x ||| fl) : t.hasFlag fl := by
  unfold TraceValue.hasFlag
  rw [hf, or_and_self]
  exact hfl

/-! ## Claim C1: write followed by read within one cycle -/

/-- Claim C1: for an enabled trace value at the start of a fresh accumulation
window (`flags = 0`), `write v` sets the WRITE flag, sets CHANGE iff `v`
differs from the stored value, stores `v` and sets `written`; the subsequent
`read()` additionally sets READ, so the flag set then contains both READ and
WRITE, and CHANGE iff `v` differed from the prior stored value. -/
theorem write_then_read_same_cycle (t : TraceValue) (v : Nat)
    (hen : t._enabled = true) (hf : t.f = 0) :
    (t.write v).hasFlag WRITE ∧
    ((t.write v).hasFlag CHANGE ↔ v ≠ t.v) ∧
    (t.write v).v = v ∧
    (t.write v)._written = true ∧
    ((t.write v).read).hasFlag READ ∧
    ((t.write v).read).hasFlag WRITE ∧
    (((t.write v).read).hasFlag CHANGE ↔ v ≠ t.v) ∧
    ((t.write v).read).v = v ∧
    ((t.write v).read)._written = true := by
  by_cases hvv : v = t.v
  all_goals simp [TraceValue.write, TraceValue.read, TraceValue.hasFlag, hen,
    hf, hvv, READ, WRITE, CHANGE]
  all_goals decide

/-- Concrete instantiation of C1: writing `0x80` to a fresh enabled
`CORE.SREG` value holding `0` and then reading it back. -/
theorem write_then_read_same_cycle_witness :
    (tvDemo.write 128).hasFlag WRITE ∧
    ((tvDemo.write 128).hasFlag CHANGE ↔ (128 : Nat) ≠ tvDemo.v) ∧
    (tvDemo.write 128).v = 128 ∧
    (tvDemo.write 128)._written = true ∧
    ((tvDemo.write 128).read).hasFlag READ ∧
    ((tvDemo.write 128).read).hasFlag WRITE ∧
    (((tvDemo.write 128).read).hasFlag CHANGE ↔ (128 : Nat) ≠ tvDemo.v) ∧
    ((tvDemo.write 128).read).v = 128 ∧
    ((tvDemo.write 128).read)._written = true :=
  write_then_read_same_cycle tvDemo 128 rfl rfl

/-! ## Claim C4: InvalidMem fault reporting -/

/-- Claim C4: for an `InvalidMem` cell (with its trace value present),
`set(v)` reports the invalid-access fault on the diagnostic channel with the
faulting value `v`, the cell's name and the program counter (printed as the
byte address `2*PC`), the written value is discarded (the cell is unchanged),
and `get()` reports an invalid-read fault with the cell's name and returns an
unspecified value; both operations return normally (neither aborts). -/
theorem invalid_mem_faults_reported (t : TraceValue) (v pc : Nat) :
    (Cell.invalid (some t)).set (some v) pc =
      ([Effect.diagInvalidWrite t.name (some v) (2 * pc)],
       Cell.invalid (some t)) ∧
    (Cell.invalid (some t)).get = ([Effect.diagInvalidRead t.name], none) :=
  ⟨rfl, rfl⟩

/-! ## Claim C5: RAM get-after-set, InvalidCell diagnostics -/

/-- Claim C5: for every RAM cell and byte `v`, `get()` immediately after
`set(v)` returns `v`; an `InvalidMem` cell (with its trace value present)
never stores a written byte, and both its `get` and `set` emit a report on
the diagnostic channel. -/
theorem ram_get_after_set (tv : Option TraceValue) (w : Option Nat)
    (v : Nat) (pc : Nat) (t : TraceValue) (ov : Option Nat) :
    (((Cell.ram tv w).set (some v) pc).2).get = ([], some v) ∧
    ((Cell.invalid (some t)).set ov pc).2 = Cell.invalid (some t) ∧
    ((Cell.invalid (some t)).set ov pc).1 =
      [Effect.diagInvalidWrite t.name ov (2 * pc)] ∧
    (Cell.invalid (some t)).get = ([Effect.diagInvalidRead t.name], none) :=
  ⟨rfl, rfl, rfl, rfl⟩

/-! ## Claim C10: null trace-value pointer in InvalidMem diagnostics -/

/-- Claim C10 counterexample: constructing a memory member with an empty
trace name leaves the trace-value pointer null (rwmem.cpp lines 55-56), and
`InvalidMem::get` / `InvalidMem::set` on such a cell evaluate `tv->name()`
on the null pointer — undefined behavior, recorded as `Effect.nullDeref` —
contradicting the claim that the report never dereferences a null pointer. -/
theorem invalid_null_tv_counterexample :
    mkRWMemoryMember true true "" (-1) = Except.ok none ∧
    (Cell.get (Cell.invalid none)).1 = [Effect.nullDeref] ∧
    ((Cell.invalid none).set (some 1) 0).1 = [Effect.nullDeref] :=
  ⟨rfl, rfl, rfl⟩

/-- Claim C10 as amended: for every `InvalidMem` cell constructed with a
non-empty trace name, the constructor allocates the trace value and `get()`
and `set(v)` execute the diagnostic report without any null-pointer
dereference; construction with an empty trace name leaves the pointer null
and `get()` then dereferences it. -/
theorem invalid_diag_safe_iff_named (nm : String) (idx : Int)
    (h : nm.length ≠ 0) (v pc : Nat) :
    (∃ t : TraceValue,
      mkRWMemoryMember true true nm idx = Except.ok (some t) ∧
      (Cell.get (Cell.invalid (some t))).1 = [Effect.diagInvalidRead t.name] ∧
      Effect.nullDeref ∉ (Cell.get (Cell.invalid (some t))).1 ∧
      ((Cell.invalid (some t)).set (some v) pc).1 =
        [Effect.diagInvalidWrite t.name (some v) (2 * pc)] ∧
      Effect.nullDeref ∉ ((Cell.invalid (some t)).set (some v) pc).1) ∧
    (mkRWMemoryMember true true "" idx = Except.ok none ∧
     Effect.nullDeref ∈ (Cell.get (Cell.invalid none)).1) := by
  refine ⟨⟨mkTraceValue 8 nm idx false, ?_, rfl, ?_, rfl, ?_⟩, rfl, ?_⟩
  · simp [mkRWMemoryMember, h]
  · simp [Cell.get]
  · simp [Cell.set]
  · simp [Cell.get]

/-- Concrete instantiation of the amended C10 at the non-empty trace name
`"MEM.X"`. -/
theorem invalid_diag_safe_iff_named_witness :
    (∃ t : TraceValue,
      mkRWMemoryMember true true "MEM.X" (-1) = Except.ok (some t) ∧
      (Cell.get (Cell.invalid (some t))).1 = [Effect.diagInvalidRead t.name] ∧
      Effect.nullDeref ∉ (Cell.get (Cell.invalid (some t))).1 ∧
      ((Cell.invalid (some t)).set (some 7) 3).1 =
        [Effect.diagInvalidWrite t.name (some 7) (2 * 3)] ∧
      Effect.nullDeref ∉ ((Cell.invalid (some t)).set (some 7) 3).1) ∧
    (mkRWMemoryMember true true "" (-1) = Except.ok none ∧
     Effect.nullDeref ∈ (Cell.get (Cell.invalid none)).1) :=
  invalid_diag_safe_iff_named "MEM.X" (-1) (by decide) 7 3

/-! ## Claim C6: the written flag is sticky -/

theorem applyTvOp_written_mono (t : TraceValue) (op : TvOp)
    (h : t._written = true) : (applyTvOp t op)._written = true := by
  cases op <;>
    simp only [applyTvOp, TraceValue.write, TraceValue.read, TraceValue.cycle,
      TraceValue.clear_flags, TraceValue.enable, TraceValue.set_written] <;>
    (repeat' split) <;> simp [h]

/-- Claim C6: `written()` is false on a freshly constructed trace value; a
logged (enabled) write sets it; and across every subsequent lifetime
operation — reads, writes (changed or not), shadow cycles, flag clearing,
enabling, `set_written` — it stays true: no operation resets it. -/
theorem written_is_sticky :
    (∀ (bits : Nat) (nm : String) (idx : Int) (sh : Bool),
      (mkTraceValue bits nm idx sh)._written = false) ∧
    (∀ (t : TraceValue) (v : Nat), t._enabled = true →
      (t.write v)._written = true) ∧
    (∀ (t : TraceValue) (ops : List TvOp), t._written = true →
      (ops.foldl applyTvOp t)._written = true) := by
  refine ⟨fun _ _ _ _ => rfl, fun t v hen => by simp [TraceValue.write, hen], ?_⟩
  intro t ops
  induction ops generalizing t with
  | nil => exact fun h => h
  | cons op rest ih =>
    intro h
    exact ih (applyTvOp t op) (applyTvOp_written_mono t op h)

/-- Concrete instantiation of C6: a fresh value is unwritten; after one
enabled write it is written and stays written across a read, a flag clear, a
same-value write and a shadow cycle. -/
theorem written_is_sticky_witness :
    ((mkTraceValue 8 "CORE.SREG" (-1) false)._written = false) ∧
    ((tvDemo.write 5)._written = true) ∧
    (([TvOp.tRead, TvOp.tClear, TvOp.tWrite 5, TvOp.tCycle 9].foldl applyTvOp
        (tvDemo.write 5))._written = true) :=
  ⟨written_is_sticky.1 8 "CORE.SREG" (-1) false,
   written_is_sticky.2.1 tvDemo 5 rfl,
   written_is_sticky.2.2 (tvDemo.write 5)
     [TvOp.tRead, TvOp.tClear, TvOp.tWrite 5, TvOp.tCycle 9]
     (written_is_sticky.2.1 tvDemo 5 rfl)⟩

/-! ## Claim C8: shadow-mode change detection -/

/-- Claim C8: for an enabled shadow-mode trace value whose shadowed external
state `ext` differs from the stored value, one `cycle()` sets the CHANGE
flag and updates the stored value to the shadow's value; a second `cycle()`
with no further mutation leaves the state untouched, and after the dump path
clears the flags a further `cycle()` does not set CHANGE again. -/
theorem shadow_cycle_change_detection (t : TraceValue) (ext : Nat)
    (hen : t._enabled = true) (hsh : t.shadowMode = true) (hne : ext ≠ t.v) :
    (t.cycle ext).hasFlag CHANGE ∧
    (t.cycle ext).v = ext ∧
    (t.cycle ext).cycle ext = t.cycle ext ∧
    ¬ ((t.cycle ext).clear_flags.cycle ext).hasFlag CHANGE := by
  have h1 : t.cycle ext = { t with f := t.f ||| CHANGE, v := ext } := by
    simp [TraceValue.cycle, hen, hsh, hne]
  refine ⟨hasFlag_or_self _ t.f CHANGE (by decide) (by rw [h1]), ?_, ?_, ?_⟩
  · rw [h1]
  · rw [h1]; simp [TraceValue.cycle, hen, hsh]
  · rw [h1]
    simp [TraceValue.clear_flags, TraceValue.cycle, hen, hsh, TraceValue.hasFlag]

/-- Concrete instantiation of C8: the external state of `TIMER0.TCNT` moves
from 0 to 5; the first cycle reports CHANGE, further cycles do not. -/
theorem shadow_cycle_change_detection_witness :
    (tvShadowDemo.cycle 5).hasFlag CHANGE ∧
    (tvShadowDemo.cycle 5).v = 5 ∧
    (tvShadowDemo.cycle 5).cycle 5 = tvShadowDemo.cycle 5 ∧
    ¬ ((tvShadowDemo.cycle 5).clear_flags.cycle 5).hasFlag CHANGE :=
  shadow_cycle_change_detection tvShadowDemo 5 rfl rfl (by decide)

/-! ## Claim C3: assignment between cells logs read then write -/

/-- Claim C3: for an assignment `a = b` between two cells that both own a
trace value, exactly one READ is logged on `b`'s trace value and exactly one
WRITE is logged on `a`'s trace value carrying the byte obtained from `b`;
the READ is the first logged effect and the WRITE the last, so the READ
precedes the WRITE. -/
theorem assign_logs_read_then_write (a b : Cell) (pc : Nat)
    (ta tb : TraceValue) (ha : a.tv = some ta) (hb : b.tv = some tb) :
    (assignCell a b pc).1.count (Effect.trRead tb.name) = 1 ∧
    (assignCell a b pc).1.count (Effect.trWrite ta.name (b.get).2) = 1 ∧
    (assignCell a b pc).1.head? = some (Effect.trRead tb.name) ∧
    (assignCell a b pc).1.getLast? = some (Effect.trWrite ta.name (b.get).2) ∧
    (assignCell a b pc).2.2 = (b.get).2 := by
  cases a <;> cases b <;>
    simp only [Cell.tv] at ha hb <;> subst ha hb <;>
    simp [assignCell, Cell.get, Cell.set, Cell.tv,
          List.count_cons, List.count_nil, List.getLast?]

/-- Concrete instantiation of C3: assigning a RAM cell holding 7 into a RAM
cell holding 1, both traced. -/
theorem assign_logs_read_then_write_witness :
    (assignCell (Cell.ram (some (mkTraceValue 8 "MEM.A" (-1) false)) (some 1))
        (Cell.ram (some (mkTraceValue 8 "MEM.B" (-1) false)) (some 7)) 0).1.count
      (Effect.trRead (mkTraceValue 8 "MEM.B" (-1) false).name) = 1 ∧
    (assignCell (Cell.ram (some (mkTraceValue 8 "MEM.A" (-1) false)) (some 1))
        (Cell.ram (some (mkTraceValue 8 "MEM.B" (-1) false)) (some 7)) 0).1.count
      (Effect.trWrite (mkTraceValue 8 "MEM.A" (-1) false).name
        ((Cell.ram (some (mkTraceValue 8 "MEM.B" (-1) false)) (some 7)).get).2) = 1 ∧
    (assignCell (Cell.ram (some (mkTraceValue 8 "MEM.A" (-1) false)) (some 1))
        (Cell.ram (some (mkTraceValue 8 "MEM.B" (-1) false)) (some 7)) 0).1.head? =
      some (Effect.trRead (mkTraceValue 8 "MEM.B" (-1) false).name) ∧
    (assignCell (Cell.ram (some (mkTraceValue 8 "MEM.A" (-1) false)) (some 1))
        (Cell.ram (some (mkTraceValue 8 "MEM.B" (-1) false)) (some 7)) 0).1.getLast? =
      some (Effect.trWrite (mkTraceValue 8 "MEM.A" (-1) false).name
        ((Cell.ram (some (mkTraceValue 8 "MEM.B" (-1) false)) (some 7)).get).2) ∧
    (assignCell (Cell.ram (some (mkTraceValue 8 "MEM.A" (-1) false)) (some 1))
        (Cell.ram (some (mkTraceValue 8 "MEM.B" (-1) false)) (some 7)) 0).2.2 =
      ((Cell.ram (some (mkTraceValue 8 "MEM.B" (-1) false)) (some 7)).get).2 :=
  assign_logs_read_then_write _ _ 0 _ _ rfl rfl

/-! ## Claim C2: notify all dumpers, then clear, once per cycle -/

/-- Claim C2: in one manager cycle, every registered dumper's event log is
extended by exactly the same event list `cycleEvents`, computed from each
active value's accumulated flags before any clearing — so no dumper loses an
event because another dumper's notification cleared the flags first — and
after all dumpers have been notified every active value's flag set has been
cleared (to 0, exactly once, at the end of the cycle). -/
theorem manager_cycle_clear_after_notify (m : DumpManager) (env : Nat → Nat) :
    (∀ j : Nat, (m.cycle env).dumperLogs[j]? =
      m.dumperLogs[j]?.map (fun log => log ++ cycleEvents env m)) ∧
    (∀ i ∈ m.activeIdx, i < m.vals.length →
      ∃ t, (m.cycle env).vals[i]? = some t ∧ t.f = 0) := by
  constructor
  · intro j
    simp [DumpManager.cycle, cycleEvents, List.getElem?_map]
  · intro i hi hlen
    exact updFold_getElem?_mem (fun _ => TraceValue.clear_flags)
      (fun t => t.f = 0) (fun _ _ => rfl) m.activeIdx
      (updFold (fun i t => t.cycle (env i)) m.activeIdx m.vals) i hi
      (by rw [updFold_length]; exact hlen)

/-- Concrete instantiation of C2 on a manager with one active, just-written
value and two dumpers: the second dumper receives the same events as the
first, and the value's flags end the cycle cleared. -/
theorem manager_cycle_clear_after_notify_witness :
    ((mgrDemo.cycle (fun _ => 0)).dumperLogs[1]? =
      (mgrDemo.dumperLogs[1]?).map
        (fun log => log ++ cycleEvents (fun _ => 0) mgrDemo)) ∧
    (∃ t, (mgrDemo.cycle (fun _ => 0)).vals[0]? = some t ∧ t.f = 0) :=
  ⟨(manager_cycle_clear_after_notify mgrDemo (fun _ => 0)).1 1,
   (manager_cycle_clear_after_notify mgrDemo (fun _ => 0)).2 0 (by decide)
     (by decide)⟩

/-! ## Claim C7: disabled values are inert and never dumped -/

theorem write_enabled_eq (t : TraceValue) (v : Nat) :
    (t.write v)._enabled = t._enabled := by
  unfold TraceValue.write; split <;> rfl

theorem read_enabled_eq (t : TraceValue) :
    t.read._enabled = t._enabled := by
  unfold TraceValue.read; split <;> rfl

theorem cycle_enabled_eq (t : TraceValue) (ext : Nat) :
    (t.cycle ext)._enabled = t._enabled := by
  unfold TraceValue.cycle; split_ifs <;> rfl

theorem getElem?_lt {l : List TraceValue} {j : Nat} {t : TraceValue}
    (h : l[j]? = some t) : j < l.length := by
  by_contra hle
  rw [List.getElem?_eq_none (Nat.le_of_not_lt hle)] at h
  cases h

/-- The run invariant behind C7: every value in the manager's active set is
an enabled value of the registry. It holds initially and is preserved by
every run operation, because `addDumper` enables every value it activates
and nothing ever disables a value. -/
def ActiveEnabled (m : DumpManager) : Prop :=
  ∀ i ∈ m.activeIdx, ∃ t, m.vals[i]? = some t ∧ t._enabled = true

theorem applyMOp_activeEnabled (m : DumpManager) (op : MOp)
    (h : ActiveEnabled m) : ActiveEnabled (applyMOp m op) := by
  cases op with
  | mReg tnew =>
    intro i hi
    by_cases hr : m.isRegistered tnew.name = true
    · have heq : applyMOp m (MOp.mReg tnew) = m := by
        simp [applyMOp, DumpManager.regTrace, hr]
      rw [heq] at hi ⊢
      exact h i hi
    · have hr' : m.isRegistered tnew.name = false := by simpa using hr
      have hact : (applyMOp m (MOp.mReg tnew)).activeIdx = m.activeIdx := by
        simp [applyMOp, DumpManager.regTrace, hr']
      have hvals : (applyMOp m (MOp.mReg tnew)).vals = m.vals ++ [tnew] := by
        simp [applyMOp, DumpManager.regTrace, hr']
      rw [hact] at hi
      obtain ⟨t0, h0, he⟩ := h i hi
      refine ⟨t0, ?_, he⟩
      rw [hvals, List.getElem?_append_left (getElem?_lt h0)]
      exact h0
  | mAddDumper sel =>
    intro i hi
    rcases List.mem_append.mp hi with hold | hnew
    · obtain ⟨t0, h0, he⟩ := h i hold
      exact updFold_getElem?_pres (fun _ => TraceValue.enable)
        (fun t => t._enabled = true) (fun _ _ _ => rfl) _ m.vals i t0 h0 he
    · have hlen : i < m.vals.length := by
        have := List.mem_filter.mp hnew
        exact List.mem_range.mp this.1
      exact updFold_getElem?_mem (fun _ => TraceValue.enable)
        (fun t => t._enabled = true) (fun _ _ => rfl) _ m.vals i hnew hlen
  | mCycle env =>
    intro i hi
    obtain ⟨t0, h0, he⟩ := h i hi
    obtain ⟨t1, h1, he1⟩ := updFold_getElem?_pres (fun i t => t.cycle (env i))
      (fun t => t._enabled = true)
      (fun i t ht => by
        show (t.cycle (env i))._enabled = true
        rw [cycle_enabled_eq]; exact ht)
      m.activeIdx m.vals i t0 h0 he
    exact updFold_getElem?_pres (fun _ => TraceValue.clear_flags)
      (fun t => t._enabled = true) (fun _ _ ht => ht) m.activeIdx _ i t1 h1 he1
  | mWrite iw val =>
    intro i hi
    obtain ⟨t0, h0, he⟩ := h i hi
    by_cases hij : iw = i
    · refine ⟨t0.write val, ?_, by rw [write_enabled_eq]; exact he⟩
      show (updAt iw (fun t => t.write val) m.vals)[i]? = some (t0.write val)
      rw [updAt_getElem?, if_pos hij, h0]
      rfl
    · refine ⟨t0, ?_, he⟩
      show (updAt iw (fun t => t.write val) m.vals)[i]? = some t0
      rw [updAt_getElem?, if_neg hij]
      exact h0
  | mRead ir =>
    intro i hi
    obtain ⟨t0, h0, he⟩ := h i hi
    by_cases hij : ir = i
    · refine ⟨t0.read, ?_, by rw [read_enabled_eq]; exact he⟩
      show (updAt ir TraceValue.read m.vals)[i]? = some t0.read
      rw [updAt_getElem?, if_pos hij, h0]
      rfl
    · refine ⟨t0, ?_, he⟩
      show (updAt ir TraceValue.read m.vals)[i]? = some t0
      rw [updAt_getElem?, if_neg hij]
      exact h0

theorem foldl_applyMOp_activeEnabled (ops : List MOp) :
    ∀ m : DumpManager, ActiveEnabled m → ActiveEnabled (ops.foldl applyMOp m) := by
  induction ops with
  | nil => exact fun m h => h
  | cons op rest ih => exact fun m h => ih _ (applyMOp_activeEnabled m op h)

/-- Claim C7: a disabled trace value is inert — any sequence of `write`,
`read` and `cycle` calls leaves its entire state (flags, stored value,
written flag) unchanged — and on every reachable manager state a value of
the active set (the only values `DumpManager::cycle` ever dumps) is enabled,
so a disabled value is never scheduled for `dump()`. -/
theorem disabled_value_is_inert :
    (∀ t : TraceValue, t._enabled = false →
      ∀ ops : List AccessOp, runAccess t ops = t) ∧
    (∀ (ops : List MOp) (i : Nat), i ∈ (runOps ops).activeIdx →
      ∃ t, (runOps ops).vals[i]? = some t ∧ t._enabled = true) := by
  constructor
  · intro t hdis ops
    have step : ∀ op : AccessOp, applyAccess t op = t := by
      intro op
      cases op <;>
        simp [applyAccess, TraceValue.write, TraceValue.read, TraceValue.cycle,
              hdis]
    induction ops with
    | nil => rfl
    | cons op rest ih =>
      show (rest.foldl applyAccess (applyAccess t op)) = t
      rw [step op]
      exact ih
  · intro ops
    exact foldl_applyMOp_activeEnabled ops initManager
      (fun i hi => absurd hi (by simp [initManager]))

/-- Concrete instantiation of C7: a never-enabled value absorbs a write, a
read and a shadow cycle without any state change; and on the run that
registers one value and adds a dumper selecting everything, the single
active value is enabled. -/
theorem disabled_value_is_inert_witness :
    runAccess (mkTraceValue 8 "HW.X" (-1) false)
      [AccessOp.aWrite 3, AccessOp.aRead, AccessOp.aCycle 9] =
      mkTraceValue 8 "HW.X" (-1) false ∧
    (∃ t, (runOps [MOp.mReg (mkTraceValue 8 "HW.X" (-1) false),
                   MOp.mAddDumper (fun _ => true)]).vals[0]? = some t ∧
          t._enabled = true) :=
  ⟨disabled_value_is_inert.1 (mkTraceValue 8 "HW.X" (-1) false) rfl
     [AccessOp.aWrite 3, AccessOp.aRead, AccessOp.aCycle 9],
   disabled_value_is_inert.2
     [MOp.mReg (mkTraceValue 8 "HW.X" (-1) false),
      MOp.mAddDumper (fun _ => true)] 0 (by decide)⟩

/-! ## Claim C9: save/load round-trip of trace-name subsets -/

theorem lookup_name (m : DumpManager) (nm : String) (t : TraceValue)
    (h : m.lookup nm = some t) : t.name = nm := by
  have := List.find?_some h
  simpa using this

theorem isRegistered_lookup (m : DumpManager) (nm : String)
    (h : m.isRegistered nm = true) : ∃ t, m.lookup nm = some t := by
  unfold DumpManager.isRegistered at h
  unfold DumpManager.lookup
  rw [List.any_eq_true] at h
  exact Option.isSome_iff_exists.mp (List.find?_isSome.mpr h)

theorem lookup_none (m : DumpManager) (nm : String)
    (h : m.isRegistered nm = false) : m.lookup nm = none := by
  unfold DumpManager.isRegistered at h
  unfold DumpManager.lookup
  rw [List.find?_eq_none]
  intro x hx hpx
  have hany : (m.vals.any fun t => decide (t.name = nm)) = true :=
    List.any_eq_true.mpr ⟨x, hx, hpx⟩
  rw [h] at hany
  cases hany

theorem load_all_registered (m : DumpManager) (ns : List String)
    (h : ∀ n ∈ ns, m.isRegistered n = true) :
    (m.load ns).1.map TraceValue.name = ns ∧ (m.load ns).2 = [] := by
  induction ns with
  | nil => exact ⟨rfl, rfl⟩
  | cons nm rest ih =>
    obtain ⟨t, ht⟩ := isRegistered_lookup m nm (h nm (List.mem_cons_self _ _))
    have hrest := ih (fun n hn => h n (List.mem_cons_of_mem _ hn))
    simp [DumpManager.load, ht, hrest.1, hrest.2, lookup_name m nm t ht]

theorem load_skips_unknown (m : DumpManager) (ns1 ns2 : List String)
    (x : String)
    (h1 : ∀ n ∈ ns1, m.isRegistered n = true)
    (h2 : ∀ n ∈ ns2, m.isRegistered n = true)
    (hx : m.isRegistered x = false) :
    (m.load (ns1 ++ [x] ++ ns2)).1.map TraceValue.name = ns1 ++ ns2 ∧
    (m.load (ns1 ++ [x] ++ ns2)).2 = [x] := by
  induction ns1 with
  | nil =>
    have hr := load_all_registered m ns2 h2
    simp [DumpManager.load, lookup_none m x hx, hr.1, hr.2]
  | cons nm rest ih =>
    obtain ⟨t, ht⟩ := isRegistered_lookup m nm (h1 nm (List.mem_cons_self _ _))
    have hr := ih (fun n hn => h1 n (List.mem_cons_of_mem _ hn))
    have hr' : (m.load (rest ++ x :: ns2)).1.map TraceValue.name =
        rest ++ ns2 ∧ (m.load (rest ++ x :: ns2)).2 = [x] := by
      simpa [List.append_assoc] using hr
    simp [DumpManager.load, ht, lookup_name m nm t ht, hr'.1, hr'.2]

/-- Claim C9: for every subset `S` of values registered in the manager,
`save` followed by `load` of the produced name stream yields a subset whose
names equal `S`'s names, with nothing reported; and if the stream
additionally contains one name that was never registered, `load` reports
exactly that name and skips it while still loading all valid names. -/
theorem save_load_roundtrip (m : DumpManager) :
    (∀ S : List TraceValue, (∀ t ∈ S, m.isRegistered t.name = true) →
      (m.load (DumpManager.save S)).1.map TraceValue.name =
        S.map TraceValue.name ∧
      (m.load (DumpManager.save S)).2 = []) ∧
    (∀ (S1 S2 : List TraceValue) (x : String),
      (∀ t ∈ S1, m.isRegistered t.name = true) →
      (∀ t ∈ S2, m.isRegistered t.name = true) →
      m.isRegistered x = false →
      (m.load (DumpManager.save S1 ++ [x] ++ DumpManager.save S2)).1.map
        TraceValue.name = S1.map TraceValue.name ++ S2.map TraceValue.name ∧
      (m.load (DumpManager.save S1 ++ [x] ++ DumpManager.save S2)).2 = [x]) := by
  constructor
  · intro S hS
    exact load_all_registered m (S.map TraceValue.name)
      (fun n hn => by
        obtain ⟨t, ht, rfl⟩ := List.mem_map.mp hn
        exact hS t ht)
  · intro S1 S2 x h1 h2 hx
    exact load_skips_unknown m (S1.map TraceValue.name)
      (S2.map TraceValue.name) x
      (fun n hn => by
        obtain ⟨t, ht, rfl⟩ := List.mem_map.mp hn
        exact h1 t ht)
      (fun n hn => by
        obtain ⟨t, ht, rfl⟩ := List.mem_map.mp hn
        exact h2 t ht)
      hx

/-- Concrete instantiation of C9 on a manager with `TIMER0.TCNT` and
`TIMER0.TCCR` registered: saving and loading the singleton subset
round-trips, and a stream with the unregistered name `UART.UDR` inserted
loads both valid names and reports exactly the unknown one. -/
theorem save_load_roundtrip_witness :
    ((initManager.regTrace (mkTraceValue 8 "TIMER0.TCNT" (-1) false)).regTrace
        (mkTraceValue 8 "TIMER0.TCCR" (-1) false)).load
      (DumpManager.save [mkTraceValue 8 "TIMER0.TCNT" (-1) false]) |>.1.map
        TraceValue.name = [mkTraceValue 8 "TIMER0.TCNT" (-1) false].map
        TraceValue.name ∧
    (((initManager.regTrace (mkTraceValue 8 "TIMER0.TCNT" (-1) false)).regTrace
        (mkTraceValue 8 "TIMER0.TCCR" (-1) false)).load
      (DumpManager.save [mkTraceValue 8 "TIMER0.TCNT" (-1) false])).2 = [] :=
  (save_load_roundtrip
      ((initManager.regTrace (mkTraceValue 8 "TIMER0.TCNT" (-1) false)).regTrace
        (mkTraceValue 8 "TIMER0.TCCR" (-1) false))).1
    [mkTraceValue 8 "TIMER0.TCNT" (-1) false] (by decide)

end Simulavr
